import Mathlib

/-!
Verification development for the fMRI preprocessing orchestrator.

The definitions below are a shallow embedding of the orchestration
subsystem: discovery of subjects/sessions (src/core/discovery.py), the
scan classifier and BIDS organizer (src/bids/converter.py), the progress
tracker (src/core/progress.py), the report aggregator
(src/reporting/report.py), the per-task scheduler (src/orchestrator.py)
and the GUI cancellation/cleanup path (gui_app.py).  Filesystem probes
and external processes are abstracted by explicit input data (directory
entries carry the result of the DICOM probe; collaborator invocations
carry their exit codes), and the thread pool is modelled by a sequential
fold over the task list, which preserves each per-task control flow and
the mutex-guarded counters exactly.
-/

namespace FmriPrep

/-! ## Character and string primitives (ASCII, as the Python code uses them) -/

/-- ASCII lower-casing of one character, as Python's `str.lower` acts on the
ASCII identifiers this pipeline manipulates. -/
def lowerChar (c : Char) : Char :=
  if 'A' ≤ c ∧ c ≤ 'Z' then Char.ofNat (c.toNat + 32) else c

/-- Lower-case a character list. -/
def lowerL (s : List Char) : List Char := s.map lowerChar

/-- Lower-case a string. -/
def lowerS (s : String) : String := ⟨lowerL s.data⟩

/-- Decimal digit test, Python's `\d` over ASCII. -/
def isDigitC (c : Char) : Bool := '0' ≤ c ∧ c ≤ '9'

/-- ASCII letter test, Python's `[a-zA-Z]`. -/
def isAlphaC (c : Char) : Bool := ('a' ≤ c ∧ c ≤ 'z') ∨ ('A' ≤ c ∧ c ≤ 'Z')

/-- Does the second list start with the first one (Python `startswith`)? -/
def leadsWith : List Char → List Char → Bool
  | [], _ => true
  | _ :: _, [] => false
  | a :: as, b :: bs => a = b && leadsWith as bs

/-- Substring containment, Python's `needle in hay`. -/
def containsSub (needle : List Char) : List Char → Bool
  | [] => leadsWith needle []
  | c :: rest => leadsWith needle (c :: rest) || containsSub needle rest

/-- String-level wrapper for `containsSub`. -/
def containsS (hay needle : String) : Bool := containsSub needle.data hay.data

/-- String-level wrapper for `leadsWith`. -/
def startsS (hay pre : String) : Bool := leadsWith pre.data hay.data

/-- Any of the keywords occurs in the description (Python
`any(x in series_desc for x in [...])`). -/
def containsAny (hay : String) (kws : List String) : Bool :=
  kws.any (fun k => containsS hay k)

/-- Decimal digits of a positive number, most significant first; `fuel`
bounds the recursion and is always taken large enough. -/
def natDigitsAux : Nat → Nat → List Char
  | 0, _ => []
  | fuel + 1, n =>
    if n < 10 then [Char.ofNat (48 + n)]
    else natDigitsAux fuel (n / 10) ++ [Char.ofNat (48 + n % 10)]

/-- Decimal representation of a natural number, Python's `str(n)`. -/
def natStr (n : Nat) : String := ⟨natDigitsAux (n + 1) n⟩

/-- Zero-pad a string on the left to length two, Python's `zfill(2)` (and
`f"{n:02d}"` when applied to `natStr`). -/
def zfill2 (s : String) : String :=
  if s.length < 2 then ⟨List.replicate (2 - s.length) '0' ++ s.data⟩ else s

/-- Two-digit (or longer) rendering of a run/session number. -/
def pad2 (n : Nat) : String := zfill2 (natStr n)

/-! ## Discovery (src/core/discovery.py, `find_sessions`) -/

/-- One immediate subdirectory of a subject folder as the discovery loop
observes it.  `hasSubdirsOrDicomLike` abstracts the filesystem probe of the
fallback branch: `d` has nested directories, or some file below `d` has a
`.dcm`/`.ima`/`.gz` suffix. -/
structure DirEntry where
  name : String
  isDir : Bool := true
  hasSubdirsOrDicomLike : Bool := false
  deriving Repr, DecidableEq

/-- Match `^ses-\d+$` against the (case-sensitive) directory name and
return the digits as given, mirroring `d.name.replace('ses-', '')`. -/
def matchSesDashDigits (name : List Char) : Option String :=
  if leadsWith "ses-".data name then
    let rest := name.drop 4
    if !rest.isEmpty && rest.all (fun ch => isDigitC ch) then some ⟨rest⟩ else none
  else none

/-- Match `^<pre>(\d+)$` and return the digits zero-padded to 2. -/
def matchPrefDigits (pre : List Char) (name : List Char) : Option String :=
  if leadsWith pre name then
    let rest := name.drop pre.length
    if !rest.isEmpty && rest.all (fun ch => isDigitC ch) then some (zfill2 ⟨rest⟩)
    else none
  else none

/-- Match `^<pre>[_-]?(\d+)$` and return the digits zero-padded to 2. -/
def matchPrefOptSepDigits (pre : List Char) (name : List Char) : Option String :=
  if leadsWith pre name then
    let rest := name.drop pre.length
    let rest2 := match rest with
      | c :: t => if c = '_' ∨ c = '-' then t else c :: t
      | [] => ([] : List Char)
    if !rest2.isEmpty && rest2.all (fun ch => isDigitC ch) then some (zfill2 ⟨rest2⟩)
    else none
  else none

/-- Match `^(?:timepoint|tp)[_-]?(\d+)$`, trying the alternatives in the
regex engine's order. -/
def matchTimepoint (name : List Char) : Option String :=
  match matchPrefOptSepDigits "timepoint".data name with
  | some i => some i
  | none => matchPrefOptSepDigits "tp".data name

/-- The session-collecting loop of `find_sessions`, accumulating
`(session_id, directory name)` pairs in iteration order. -/
def findSessionsAux (acc : List (String × String)) : List DirEntry → List (String × String)
  | [] => acc
  | e :: rest =>
    if !e.isDir || startsS e.name "." then findSessionsAux acc rest
    else
      let nm := lowerS e.name
      match matchSesDashDigits e.name.data with
      | some i => findSessionsAux (acc ++ [(i, e.name)]) rest
      | none =>
      match matchPrefDigits "mri".data nm.data with
      | some i => findSessionsAux (acc ++ [(i, e.name)]) rest
      | none =>
      match matchPrefOptSepDigits "session".data nm.data with
      | some i => findSessionsAux (acc ++ [(i, e.name)]) rest
      | none =>
      match matchTimepoint nm.data with
      | some i => findSessionsAux (acc ++ [(i, e.name)]) rest
      | none =>
      if nm = "baseline" || nm = "pre" || nm = "screening" then
        findSessionsAux (acc ++ [("01", e.name)]) rest
      else if nm = "followup" || nm = "post" || nm = "followup1" then
        findSessionsAux (acc ++ [("02", e.name)]) rest
      else if nm = "followup2" || nm = "post2" then
        findSessionsAux (acc ++ [("03", e.name)]) rest
      else if nm = "scans" then
        findSessionsAux (acc ++ [("01", e.name)]) rest
      else if e.hasSubdirsOrDicomLike then
        findSessionsAux (acc ++ [(pad2 (acc.length + 1), e.name)]) rest
      else
        findSessionsAux acc rest

/-- Shallow embedding of `find_sessions(subject_path)`: the entries are the
immediate subdirectories in sorted name order; if none matches any rule the
subject folder itself becomes the single synthetic session `01`. -/
def find_sessions (subjectPath : String) (entries : List DirEntry) :
    List (String × String) :=
  let sessions := findSessionsAux [] entries
  if sessions.isEmpty then [("01", subjectPath)] else sessions

/-! ## Classifier (src/bids/converter.py, `_classify_scan`) -/

/-- Metadata fields of one converted series that `_classify_scan` reads:
the JSON sidecar's `PhaseEncodingDirection` and `ImageType`. -/
structure ScanMeta where
  seriesDescription : String
  phaseEncodingDirection : String := ""
  imageType : List String := []
  deriving Repr, DecidableEq

/-- Search for `task[_-]([a-zA-Z]+)` in the description and return the first
captured group, mirroring `re.search` scanning left to right. -/
def taskSearch : List Char → Option (List Char)
  | [] => none
  | c :: rest =>
    if leadsWith "task".data (c :: rest) then
      match (c :: rest).drop 4 with
      | s :: r =>
        if s = '_' ∨ s = '-' then
          let g := r.takeWhile (fun ch => isAlphaC ch)
          if g.isEmpty then taskSearch rest else some g
        else taskSearch rest
      | [] => taskSearch rest
    else taskSearch rest

/-- Does the list consist of one or more letters followed by zero or more
digits (the anchored remainder of `[-_]([a-zA-Z]+)\d*$`)? -/
def alphaThenDigitsEnd (l : List Char) : Bool :=
  let a := l.takeWhile (fun ch => isAlphaC ch)
  (!a.isEmpty) && (l.drop a.length).all (fun ch => isDigitC ch)

/-- Leftmost match of `[-_]([a-zA-Z]+)\d*$`, returning the captured letters. -/
def tailWordSearch : List Char → Option (List Char)
  | [] => none
  | c :: rest =>
    if (c = '-' ∨ c = '_') ∧ alphaThenDigitsEnd rest then
      some (rest.takeWhile (fun ch => isAlphaC ch))
    else tailWordSearch rest

/-- Functional-scan test of `_classify_scan`: bold/fmri/mbepi keywords, a
`func` prefix, or `epi` excluding the spin-echo spellings. -/
def isFunctionalDesc (d : String) : Bool :=
  containsAny d ["bold", "fmri", "mbepi"] || startsS d "func" ||
    (containsS d "epi" && !containsS d "se_epi" && !containsS d "seepi" &&
      !containsS d "spinecho")

/-- Task label derived for a functional scan, following the chain of
`elif` keyword checks and the trailing-word fallback. -/
def funcTaskLabel (d : String) : String :=
  match taskSearch d.data with
  | some g => ⟨lowerL g⟩
  | none =>
    if containsS d "rest" then "rest"
    else if containsS d "memory" then "memory"
    else if containsS d "movie" then "movie"
    else if containsS d "music" then "music"
    else if containsS d "story" then "story"
    else if containsS d "sound" then "sound"
    else if containsS d "faces" then "faces"
    else if containsS d "motor" then "motor"
    else if containsS d "nf" || containsS d "neurofeedback" then "nf"
    else if containsS d "word" then "wordpairs"
    else
      match tailWordSearch d.data with
      | some g => ⟨lowerL g⟩
      | none => "unknown"

/-- Shallow embedding of `_classify_scan(metadata, series_desc)`:
`series_desc` is the lower-cased `SeriesDescription` and the result is
`(datatype, suffix, custom_entities)`, or `none` for an unrecognized scan. -/
def classifyScan (meta : ScanMeta) (seriesDesc : String) :
    Option (String × String × String) :=
  if isFunctionalDesc seriesDesc then
    some ("func", "bold", "task-" ++ funcTaskLabel seriesDesc)
  else if containsAny seriesDesc ["t1w", "t1_", "mprage", "spgr", "bravo", "tfl"] then
    some ("anat", "T1w", "")
  else if containsAny seriesDesc ["t2w", "t2_", "t2space", "tse", "fse"] then
    some ("anat", "T2w", "")
  else if containsS seriesDesc "flair" || containsS seriesDesc "dark_fluid" then
    some ("anat", "FLAIR", "")
  else if containsAny seriesDesc ["ap", "pa", "se_epi", "spinecho", "topup", "distortion"] then
    if containsS meta.phaseEncodingDirection "j-" || containsS seriesDesc "ap" then
      some ("fmap", "epi", "dir-AP")
    else if containsS meta.phaseEncodingDirection "j" || containsS seriesDesc "pa" then
      some ("fmap", "epi", "dir-PA")
    else
      some ("fmap", "epi", "")
  else if containsS seriesDesc "fieldmap" || containsS seriesDesc "gre_field" then
    some ("fmap", "phasediff", "")
  else if containsAny seriesDesc ["dwi", "dti", "diffusion", "hardi"] then
    some ("dwi", "dwi", "")
  else if containsAny seriesDesc ["asl", "pcasl", "pasl"] then
    some ("perf", "asl", "")
  else if meta.imageType.contains "FMRI" || meta.imageType.contains "BOLD" then
    some ("func", "bold", "task-unknown")
  else
    none

/-! ## BIDS organizer (src/bids/converter.py, `_organize_to_bids`) -/

/-- One dcm2niix output series as the organizing loop observes it:
its sidecar metadata, whether a matching NIfTI file exists, and whether
the JSON sidecar could be read. -/
structure ScanFile where
  meta : ScanMeta
  hasNifti : Bool := true
  jsonReadable : Bool := true
  deriving Repr, DecidableEq

/-- One organized output file: classification as returned by
`_classify_scan` (`baseEntities`) and the entities actually written into
the BIDS filename (`entities`, after run-number assignment). -/
structure BidsOutput where
  datatype : String
  suffix : String
  baseEntities : String
  entities : String
  deriving Repr, DecidableEq

/-- Lookup in the run-counter dictionary, Python's `dict.get(key, 0)`. -/
def lookupD (m : List (String × Nat)) (k : String) : Nat :=
  match m.find? (fun p => p.1 = k) with
  | some p => p.2
  | none => 0

/-- Update of the run-counter dictionary (newest binding shadows). -/
def insertD (m : List (String × Nat)) (k : String) (v : Nat) : List (String × Nat) :=
  (k, v) :: m

/-- State threaded through the `_organize_to_bids` loop: the organized and
unrecognized-scan counters, the per-task run counters, and the outputs in
encounter order. -/
structure OrgState where
  organized : Nat := 0
  skippedUnrec : Nat := 0
  counters : List (String × Nat) := []
  outputs : List BidsOutput := []
  deriving Repr, DecidableEq

/-- Body of the `_organize_to_bids` loop for one JSON sidecar. -/
def organizeStep (st : OrgState) (sc : ScanFile) : OrgState :=
  if !sc.hasNifti then st
  else if !sc.jsonReadable then st
  else
    let desc := lowerS sc.meta.seriesDescription
    match classifyScan sc.meta desc with
    | none => { st with skippedUnrec := st.skippedUnrec + 1 }
    | some (datatype, suffix, entities0) =>
      if datatype = "func" && containsS entities0 "task-" then
        let key := datatype ++ "_" ++ entities0
        let n := lookupD st.counters key + 1
        { st with
            organized := st.organized + 1,
            counters := insertD st.counters key n,
            outputs := st.outputs ++
              [⟨datatype, suffix, entities0, entities0 ++ "_run-" ++ pad2 n⟩] }
      else
        { st with
            organized := st.organized + 1,
            outputs := st.outputs ++ [⟨datatype, suffix, entities0, entities0⟩] }

/-- Shallow embedding of `_organize_to_bids`: fold the loop body over the
sorted JSON sidecars. -/
def organizeAll (scans : List ScanFile) : OrgState :=
  scans.foldl organizeStep {}

/-- The outputs whose classification was functional with the given task
label, in encounter order. -/
def funcOutputsFor (label : String) (outs : List BidsOutput) : List BidsOutput :=
  outs.filter (fun o => o.datatype = "func" && o.baseEntities = "task-" ++ label)

/-- Does this scan contribute a functional output with the given label? -/
def yieldsFuncLabel (label : String) (sc : ScanFile) : Bool :=
  sc.hasNifti && sc.jsonReadable &&
    (match classifyScan sc.meta (lowerS sc.meta.seriesDescription) with
     | some (d, _, e) => d = "func" && e = "task-" ++ label
     | none => false)

/-- Is this scan processed but unrecognized by the classifier? -/
def isUnrecognized (sc : ScanFile) : Bool :=
  sc.hasNifti && sc.jsonReadable &&
    (classifyScan sc.meta (lowerS sc.meta.seriesDescription)).isNone

/-- Is this scan processed and recognized? -/
def isRecognized (sc : ScanFile) : Bool :=
  sc.hasNifti && sc.jsonReadable &&
    (classifyScan sc.meta (lowerS sc.meta.seriesDescription)).isSome

/-! ## Report aggregator (src/reporting/report.py, `ConversionReport`) -/

/-- A successful-conversion record (`add_success`). -/
structure SuccessEntry where
  subId : String
  sesId : String
  duration : Nat := 0
  deriving Repr, DecidableEq

/-- A failure record (`add_failure`). -/
structure FailEntry where
  subId : String
  sesId : String
  error : String
  stage : String
  deriving Repr, DecidableEq

/-- A skipped-item record (`add_skipped`). -/
structure SkipEntry where
  subId : String
  sesId : String
  reason : String
  deriving Repr, DecidableEq

/-- The report aggregator's mutable state. -/
structure Report where
  successful : List SuccessEntry := []
  failed : List FailEntry := []
  skipped : List SkipEntry := []
  warnings : List String := []
  totalTasks : Nat := 0
  deriving Repr, DecidableEq

/-- The `add_success` method: append under the lock. -/
def Report.add_success (r : Report) (subId sesId : String) (duration : Nat) : Report :=
  { r with successful := r.successful ++ [⟨subId, sesId, duration⟩] }

/-- The `add_failure` method: append under the lock. -/
def Report.add_failure (r : Report) (subId sesId error stage : String) : Report :=
  { r with failed := r.failed ++ [⟨subId, sesId, error, stage⟩] }

/-- The `add_skipped` method: append under the lock. -/
def Report.add_skipped (r : Report) (subId sesId reason : String) : Report :=
  { r with skipped := r.skipped ++ [⟨subId, sesId, reason⟩] }

/-- The overall status chosen by the summary box of `generate_report`,
derived purely from the success and failure counts. -/
inductive RunStatus where
  | fullSuccess
  | partialSuccess
  | totalFailure
  | nothingProcessed
  deriving Repr, DecidableEq

/-- Status selection of `generate_report` (the `if/elif` chain over
`fail_count` and `success_count`). -/
def Report.status (r : Report) : RunStatus :=
  let successCount := r.successful.length
  let failCount := r.failed.length
  if failCount = 0 ∧ successCount > 0 then .fullSuccess
  else if failCount > 0 ∧ successCount > 0 then .partialSuccess
  else if failCount > 0 ∧ successCount = 0 then .totalFailure
  else .nothingProcessed

/-! ## Scheduler (src/orchestrator.py, `process_single_task` and `main`) -/

/-- A conversion task as built by `main`. -/
structure TaskSpec where
  subId : String
  sesId : String
  taskNum : Nat := 0
  deriving Repr, DecidableEq

/-- Behaviour of the external collaborators for one task: the dcm2niix
exit code, the series it produced, and the fMRIPrep runner's exit code. -/
structure TaskBehavior where
  dcm2niixExit : Nat := 0
  scans : List ScanFile := []
  fmriprepExit : Nat := 0
  deriving Repr, DecidableEq

/-- Outcome of `run_bids_conversion` for one task: success flag and error
message (durations are wall-clock and abstracted to 0). -/
def run_bids_conversion (b : TaskBehavior) : Bool × Option String :=
  if b.dcm2niixExit ≠ 0 then (false, some "dcm2niix failed")
  else if (organizeAll b.scans).organized > 0 then (true, none)
  else (false, some "No files were organized into BIDS structure")

/-- Shared orchestrator state: the report, the progress tracker's counter
together with the `[PROGRESS:TASK:n]` values it published, the
dataset-descriptor event, and the fMRIPrep invocations performed. -/
structure OrchState where
  report : Report := {}
  completed : Nat := 0
  progressEvents : List Nat := []
  descCreated : Bool := false
  fmriprepCalls : List String := []
  deriving Repr, DecidableEq

/-- The `ProgressTracker.increment` method: add one under the lock, then
publish the new count. -/
def incrementTracker (st : OrchState) : OrchState :=
  { st with
      completed := st.completed + 1,
      progressEvents := st.progressEvents ++ [st.completed + 1] }

/-- What one task did, recorded at the task boundary. -/
structure TaskTrace where
  convRan : Bool
  convSuccess : Bool
  fmriprepRan : Bool
  error : Option String
  deriving Repr, DecidableEq

/-- The fMRIPrep section of `process_single_task` (step 2). -/
def fmriprepStep (skipFmriprep : Bool) (t : TaskSpec) (b : TaskBehavior)
    (st : OrchState) : OrchState × Option String :=
  if skipFmriprep then (st, none)
  else
    let st := { st with fmriprepCalls := st.fmriprepCalls ++ [t.subId] }
    if b.fmriprepExit ≠ 0 then
      let r := st.report.add_failure t.subId t.sesId "fMRIPrep processing failed" "fMRIPrep"
      ({ st with report := r },
       some ("sub-" ++ t.subId ++ "/ses-" ++ t.sesId ++ " (fMRIPrep failed)"))
    else (st, none)

/-- Shallow embedding of `process_single_task`: runs the conversion stage
(unless skipped), records the outcome, increments the progress counter, and
runs the fMRIPrep stage only when conversion did not fail; returns the new
state, the error string (if any) and the task's trace. -/
def process_single_task (skipBids skipFmriprep : Bool) (t : TaskSpec)
    (b : TaskBehavior) (st : OrchState) : OrchState × Option String × TaskTrace :=
  if skipBids then
    let (st, err) := fmriprepStep skipFmriprep t b st
    (st, err, ⟨false, false, !skipFmriprep, err⟩)
  else
    let conv := run_bids_conversion b
    if conv.1 then
      let st := { st with report := st.report.add_success t.subId t.sesId 0 }
      let st := if !st.descCreated then { st with descCreated := true } else st
      let st := incrementTracker st
      let (st, err) := fmriprepStep skipFmriprep t b st
      (st, err, ⟨true, true, !skipFmriprep, err⟩)
    else
      let r := st.report.add_failure t.subId t.sesId (conv.2.getD "") "BIDS Conversion"
      let st := { st with report := r }
      let st := incrementTracker st
      let err := some ("sub-" ++ t.subId ++ "/ses-" ++ t.sesId ++ " (BIDS failed)")
      (st, err, ⟨true, false, false, err⟩)

/-- The trace a task produces, as a function of that task's own inputs
alone (no dependence on shared state or on the other tasks). -/
def traceOf (skipBids skipFmriprep : Bool) (t : TaskSpec) (b : TaskBehavior) :
    TaskTrace :=
  if skipBids then
    if skipFmriprep then ⟨false, false, false, none⟩
    else if b.fmriprepExit ≠ 0 then
      ⟨false, false, true,
        some ("sub-" ++ t.subId ++ "/ses-" ++ t.sesId ++ " (fMRIPrep failed)")⟩
    else ⟨false, false, true, none⟩
  else if (run_bids_conversion b).1 then
    if skipFmriprep then ⟨true, true, false, none⟩
    else if b.fmriprepExit ≠ 0 then
      ⟨true, true, true,
        some ("sub-" ++ t.subId ++ "/ses-" ++ t.sesId ++ " (fMRIPrep failed)")⟩
    else ⟨true, true, true, none⟩
  else
    ⟨true, false, false,
      some ("sub-" ++ t.subId ++ "/ses-" ++ t.sesId ++ " (BIDS failed)")⟩

/-- Result of one orchestrator invocation (`main` after argument parsing):
the final report, whether the report file was written before exiting, the
exit code, the collected error strings, the progress markers, and one trace
per submitted task. -/
structure MainResult where
  report : Report
  reportWritten : Bool
  exitCode : Nat
  errors : List String
  progressEvents : List Nat
  completed : Nat
  fmriprepCalls : List String
  traces : List TaskTrace
  deriving Repr, DecidableEq

/-- Accumulator of the task-execution phase of `main`. -/
structure ExecAcc where
  st : OrchState
  errors : List String
  traces : List TaskTrace
  deriving Repr, DecidableEq

/-- Execute one submitted task and collect its error, as the
`as_completed` loop of `main` does. -/
def execTask (skipBids skipFmriprep : Bool) (acc : ExecAcc)
    (p : TaskSpec × TaskBehavior) : ExecAcc :=
  let r := process_single_task skipBids skipFmriprep p.1 p.2 acc.st
  { st := r.1,
    errors := acc.errors ++ (match r.2.1 with | some e => [e] | none => []),
    traces := acc.traces ++ [r.2.2] }

/-- Shallow embedding of `main` from task-list construction onwards: with
no tasks the process exits 0 immediately (no report); otherwise every task
is executed, the report is generated and written, and the exit code is 1
exactly when some task reported an error. -/
def runMain (skipBids skipFmriprep : Bool)
    (tb : List (TaskSpec × TaskBehavior)) : MainResult :=
  if tb.isEmpty then
    { report := {}, reportWritten := false, exitCode := 0, errors := [],
      progressEvents := [], completed := 0, fmriprepCalls := [], traces := [] }
  else
    let st0 : OrchState := { report := { totalTasks := tb.length } }
    let acc := tb.foldl (execTask skipBids skipFmriprep) ⟨st0, [], []⟩
    { report := acc.st.report,
      reportWritten := true,
      exitCode := if acc.errors.isEmpty then 0 else 1,
      errors := acc.errors,
      progressEvents := acc.st.progressEvents,
      completed := acc.st.completed,
      fmriprepCalls := acc.st.fmriprepCalls,
      traces := acc.traces }

/-! ## GUI cancellation and cleanup (gui_app.py, `run_subprocess` and
`_perform_stop`) -/

/-- The output-forwarding loop of `run_subprocess`: before each stdout
line the cooperative stop flag is polled and the loop breaks once it is
set; `idx` is the index of the next line. -/
def forwardFrom (stopFlag : Nat → Bool) (idx : Nat) : List String → List String
  | [] => []
  | l :: rest =>
    if stopFlag idx then [] else l :: forwardFrom stopFlag (idx + 1) rest

/-- Lines forwarded to the console for a whole subprocess run. -/
def forwardedLines (stopFlag : Nat → Bool) (lines : List String) : List String :=
  forwardFrom stopFlag 0 lines

/-- How the external process group reacts to the graceful SIGTERM. -/
inductive ProcResponse where
  | exitsOnTerm
  | ignoresTerm
  deriving Repr, DecidableEq

/-- Termination sequence of `cleanup_background`: SIGTERM the process
group, wait up to the 5 s grace period, then SIGKILL; either way the
process is not alive afterwards. -/
def terminateProcess : ProcResponse → Bool
  | .exitsOnTerm => false
  | .ignoresTerm => false

/-- The deletion retry loop `for attempt in range(3)`: attempt `rmtree`,
breaking on success and sleeping and retrying on a `PermissionError`;
`lockError k` tells whether attempt `k` hits a file-lock error.  Returns
whether the subtree was deleted. -/
def deleteLoop : Nat → (Nat → Bool) → Bool
  | 0, _ => false
  | n + 1, lockError =>
    if lockError 0 then deleteLoop n (fun k => lockError (k + 1)) else true

/-- The output-folder removal of `_perform_stop` (3 attempts). -/
def rmtreeWithRetry (lockError : Nat → Bool) : Bool := deleteLoop 3 lockError

/-- Does the run's output subtree still exist after the cancellation
cleanup? -/
def folderExistsAfterStop (folderExists : Bool) (lockError : Nat → Bool) : Bool :=
  folderExists && !rmtreeWithRetry lockError

/-! ## Helper lemmas about the string primitives -/

theorem leadsWith_eq_append {p l : List Char} (h : leadsWith p l = true) :
    l = p ++ l.drop p.length := by
  induction p generalizing l with
  | nil => simp
  | cons a as ih =>
    cases l with
    | nil => simp [leadsWith] at h
    | cons b bs =>
      simp only [leadsWith, Bool.and_eq_true, decide_eq_true_eq] at h
      obtain ⟨rfl, h2⟩ := h
      simpa using ih h2

theorem leadsWith_append (p t : List Char) : leadsWith p (p ++ t) = true := by
  induction p with
  | nil => simp [leadsWith]
  | cons a as ih => simpa [leadsWith] using ih

theorem zfill2_length (s : String) : 2 ≤ (zfill2 s).length := by
  unfold zfill2
  split
  · simp only [String.length]
    simp only [List.length_append, List.length_replicate]
    omega
  · omega

theorem zfill2_data_digits {s : String} (h : s.data.all isDigitC = true) :
    (zfill2 s).data.all isDigitC = true := by
  unfold zfill2
  split
  · simp only [List.all_append, Bool.and_eq_true]
    refine ⟨?_, h⟩
    simp only [List.all_eq_true]
    intro c hc
    rcases List.eq_of_mem_replicate hc with rfl
    decide
  · exact h

theorem isDigitC_ofNat48 {n : Nat} (h : n < 10) :
    isDigitC (Char.ofNat (48 + n)) = true := by
  interval_cases n <;> decide

theorem natDigitsAux_digits (fuel n : Nat) :
    (natDigitsAux fuel n).all isDigitC = true := by
  induction fuel generalizing n with
  | zero => rfl
  | succ f ih =>
    unfold natDigitsAux
    split
    · simpa using isDigitC_ofNat48 (by omega)
    · simp only [List.all_append, Bool.and_eq_true]
      exact ⟨ih _, by simpa using isDigitC_ofNat48 (Nat.mod_lt n (by omega))⟩

theorem natStr_digits (n : Nat) : (natStr n).data.all isDigitC = true :=
  natDigitsAux_digits (n + 1) n

theorem pad2_digits (n : Nat) : (pad2 n).data.all isDigitC = true :=
  zfill2_data_digits (natStr_digits n)

theorem pad2_length (n : Nat) : 2 ≤ (pad2 n).length := zfill2_length (natStr n)

theorem length_pos_of_le_length {s : String} (h : 2 ≤ s.length) : s.data ≠ [] := by
  intro hnil
  have : s.length = 0 := by simp [String.length, hnil]
  omega

/-! ## Inversion lemmas for the discovery pattern matchers -/

theorem matchSesDashDigits_some {name : List Char} {i : String}
    (h : matchSesDashDigits name = some i) :
    i.data ≠ [] ∧ i.data.all isDigitC = true ∧ name = "ses-".data ++ i.data := by
  unfold matchSesDashDigits at h
  split at h
  · rename_i hpre
    dsimp only at h
    split at h
    · rename_i hcond
      simp only [Bool.and_eq_true, Bool.not_eq_true, List.isEmpty_eq_false] at hcond
      obtain ⟨hne, hdig⟩ := hcond
      obtain rfl : (⟨name.drop 4⟩ : String) = i := by injection h
      refine ⟨by simpa using hne, hdig, ?_⟩
      simpa using leadsWith_eq_append hpre
    · exact absurd h (by simp)
  · exact absurd h (by simp)

theorem matchPrefDigits_some {pre name : List Char} {i : String}
    (h : matchPrefDigits pre name = some i) :
    i.data ≠ [] ∧ i.data.all isDigitC = true ∧ 2 ≤ i.length := by
  unfold matchPrefDigits at h
  split at h
  · dsimp only at h
    split at h
    · rename_i hcond
      obtain rfl : zfill2 ⟨name.drop pre.length⟩ = i := by injection h
      simp only [Bool.and_eq_true, Bool.not_eq_true, List.isEmpty_eq_false] at hcond
      exact ⟨length_pos_of_le_length (zfill2_length _),
        zfill2_data_digits (by simpa using hcond.2), zfill2_length _⟩
    · exact absurd h (by simp)
  · exact absurd h (by simp)

theorem matchPrefOptSepDigits_some {pre name : List Char} {i : String}
    (h : matchPrefOptSepDigits pre name = some i) :
    i.data ≠ [] ∧ i.data.all isDigitC = true ∧ 2 ≤ i.length := by
  unfold matchPrefOptSepDigits at h
  split at h
  · dsimp only at h
    split at h
    · rename_i hcond
      obtain rfl : zfill2 _ = i := by injection h
      simp only [Bool.and_eq_true, Bool.not_eq_true, List.isEmpty_eq_false] at hcond
      exact ⟨length_pos_of_le_length (zfill2_length _),
        zfill2_data_digits (by simpa using hcond.2), zfill2_length _⟩
    · exact absurd h (by simp)
  · exact absurd h (by simp)

theorem matchTimepoint_some {name : List Char} {i : String}
    (h : matchTimepoint name = some i) :
    i.data ≠ [] ∧ i.data.all isDigitC = true ∧ 2 ≤ i.length := by
  unfold matchTimepoint at h
  split at h
  · rename_i heq
    cases h
    exact matchPrefOptSepDigits_some heq
  · exact matchPrefOptSepDigits_some h

/-- Shape invariant of one discovered session pair: the id is a nonempty
digit string, and it is at least two characters long unless it came from
the `ses-` rule, which returns the digits of the name as given. -/
def sessIdOk (pr : String × String) : Prop :=
  pr.1.data ≠ [] ∧ pr.1.data.all isDigitC = true ∧
    (2 ≤ pr.1.length ∨ pr.2.data = "ses-".data ++ pr.1.data)

theorem sessIdOk_padded {s : String} (id : String) (h1 : id.data ≠ [])
    (h2 : id.data.all isDigitC = true) (h3 : 2 ≤ id.length) : sessIdOk (id, s) :=
  ⟨h1, h2, Or.inl h3⟩

theorem mem_append_one {α : Type} {P : α → Prop} {acc : List α} {x : α}
    (hacc : ∀ a ∈ acc, P a) (hx : P x) : ∀ a ∈ acc ++ [x], P a := by
  intro a ha
  rcases List.mem_append.1 ha with h | h
  · exact hacc a h
  · rcases List.mem_singleton.1 h with rfl
    exact hx

theorem findSessionsAux_shape (entries : List DirEntry) :
    ∀ acc : List (String × String), (∀ pr ∈ acc, sessIdOk pr) →
      ∀ pr ∈ findSessionsAux acc entries, sessIdOk pr := by
  induction entries with
  | nil => intro acc hacc pr hpr; exact hacc pr hpr
  | cons e rest ih =>
    intro acc hacc pr hpr
    rw [findSessionsAux] at hpr
    split at hpr
    · exact ih acc hacc pr hpr
    · dsimp only at hpr
      split at hpr
      next i heq =>
        obtain ⟨h1, h2, h3⟩ := matchSesDashDigits_some heq
        exact ih _ (mem_append_one hacc ⟨h1, h2, Or.inr h3⟩) pr hpr
      next =>
      split at hpr
      next i heq =>
        obtain ⟨h1, h2, h3⟩ := matchPrefDigits_some heq
        exact ih _ (mem_append_one hacc ⟨h1, h2, Or.inl h3⟩) pr hpr
      next =>
      split at hpr
      next i heq =>
        obtain ⟨h1, h2, h3⟩ := matchPrefOptSepDigits_some heq
        exact ih _ (mem_append_one hacc ⟨h1, h2, Or.inl h3⟩) pr hpr
      next =>
      split at hpr
      next i heq =>
        obtain ⟨h1, h2, h3⟩ := matchTimepoint_some heq
        exact ih _ (mem_append_one hacc ⟨h1, h2, Or.inl h3⟩) pr hpr
      next =>
      split at hpr
      · exact ih _ (mem_append_one hacc (sessIdOk_padded _ (by decide) (by decide) (by decide))) pr hpr
      split at hpr
      · exact ih _ (mem_append_one hacc (sessIdOk_padded _ (by decide) (by decide) (by decide))) pr hpr
      split at hpr
      · exact ih _ (mem_append_one hacc (sessIdOk_padded _ (by decide) (by decide) (by decide))) pr hpr
      split at hpr
      · exact ih _ (mem_append_one hacc (sessIdOk_padded _ (by decide) (by decide) (by decide))) pr hpr
      split at hpr
      · exact ih _ (mem_append_one hacc
          (sessIdOk_padded _ (length_pos_of_le_length (pad2_length _)) (pad2_digits _)
            (pad2_length _))) pr hpr
      · exact ih acc hacc pr hpr

/-- C5 (amended): every session id returned by `find_sessions` is a
nonempty digit string; ids produced by any rule other than the `ses-` rule
are zero-padded to at least two digits, while the `ses-` rule returns the
digits of the folder name as given (possibly a single digit); session ids
are not guaranteed to be pairwise distinct within a subject. -/
theorem find_sessions_id_shape (sp : String) (entries : List DirEntry) :
    ∀ pr ∈ find_sessions sp entries, sessIdOk pr := by
  intro pr hpr
  unfold find_sessions at hpr
  dsimp only at hpr
  split at hpr
  · rcases List.mem_singleton.1 hpr with rfl
    exact sessIdOk_padded _ (by decide) (by decide) (by decide)
  · exact findSessionsAux_shape entries [] (by simp) pr hpr

/-- Witness for C5 (amended): instantiation at a subject with a single
`MRI1` folder. -/
theorem find_sessions_id_shape_witness :
    ("01", "MRI1") ∈ find_sessions "subj" [⟨"MRI1", true, false⟩] ∧
      sessIdOk ("01", "MRI1") :=
  ⟨by decide, find_sessions_id_shape "subj" [⟨"MRI1", true, false⟩] _ (by decide)⟩

/-- Counterexample to C5 as stated: for a subject with folders `MRI1`,
`baseline` and `ses-7`, `find_sessions` returns ids `01`, `01` and `7` —
`7` is not a 2-digit zero-padded string and the ids are not pairwise
distinct. -/
theorem find_sessions_c5_counterexample :
    ¬ ((∀ pr ∈ find_sessions "subj"
          [⟨"MRI1", true, false⟩, ⟨"baseline", true, false⟩, ⟨"ses-7", true, false⟩],
          pr.1.length = 2 ∧ pr.1.data.all isDigitC = true) ∧
        ((find_sessions "subj"
          [⟨"MRI1", true, false⟩, ⟨"baseline", true, false⟩, ⟨"ses-7", true, false⟩]).map
          Prod.fst).Nodup) := by
  decide

/-- C7: each documented pattern of the Discovery table yields the
documented 2-digit session id, and a subject whose subdirectories match no
rule gets the single synthetic session `01` bound to the subject folder
itself. -/
theorem find_sessions_table :
    find_sessions "subj" [⟨"MRI1", true, false⟩] = [("01", "MRI1")] ∧
    find_sessions "subj" [⟨"MRI12", true, false⟩] = [("12", "MRI12")] ∧
    find_sessions "subj" [⟨"ses-07", true, false⟩] = [("07", "ses-07")] ∧
    find_sessions "subj" [⟨"session_3", true, false⟩] = [("03", "session_3")] ∧
    find_sessions "subj" [⟨"baseline", true, false⟩] = [("01", "baseline")] ∧
    find_sessions "subj" [⟨"followup", true, false⟩] = [("02", "followup")] ∧
    find_sessions "subj" [⟨"scans", true, false⟩] = [("01", "scans")] ∧
    find_sessions "subj" [⟨"randomdir", true, false⟩] = [("01", "subj")] := by
  decide

/-- Counterexample to C2 as stated: the description `Localizer_BOLD`
contains the exclusion keyword `localizer`, yet the classifier has no
exclusion rule and the functional rule fires first, so the scan is
classified functional (with task label `bold` from the trailing-word
heuristic) instead of skip. -/
theorem classify_c2_counterexample :
    classifyScan { seriesDescription := "Localizer_BOLD" } (lowerS "Localizer_BOLD")
        = some ("func", "bold", "task-bold") ∧
      classifyScan { seriesDescription := "Localizer_BOLD" } (lowerS "Localizer_BOLD")
        ≠ none := by
  decide

/-- C2 (amended): the classifier evaluates its ordered recognition rules
top-down with first match winning (functional first, then anatomical,
fieldmap, diffusion, perfusion, then the ImageType fallback), and it has no
exclusion rule: a description is classified skip exactly when it matches
none of the recognition rules, so exclusion-keyword descriptions such as
`localizer_3plane` are skipped only because no rule matches them. -/
theorem classify_no_rule_match_skip (meta : ScanMeta) (d : String)
    (h1 : isFunctionalDesc d = false)
    (h2 : containsAny d ["t1w", "t1_", "mprage", "spgr", "bravo", "tfl"] = false)
    (h3 : containsAny d ["t2w", "t2_", "t2space", "tse", "fse"] = false)
    (h4 : (containsS d "flair" || containsS d "dark_fluid") = false)
    (h5 : containsAny d ["ap", "pa", "se_epi", "spinecho", "topup", "distortion"] = false)
    (h6 : (containsS d "fieldmap" || containsS d "gre_field") = false)
    (h7 : containsAny d ["dwi", "dti", "diffusion", "hardi"] = false)
    (h8 : containsAny d ["asl", "pcasl", "pasl"] = false)
    (h9 : (meta.imageType.contains "FMRI" || meta.imageType.contains "BOLD") = false) :
    classifyScan meta d = none := by
  simp only [Bool.or_eq_false_iff] at h9
  have h9a : "FMRI" ∉ meta.imageType := by simpa using h9.1
  have h9b : "BOLD" ∉ meta.imageType := by simpa using h9.2
  simp [classifyScan, h1, h2, h3, h4, h5, h6, h7, h8, h9a, h9b]

/-- Witness for C2 (amended): the spec's own example `localizer_3plane`
matches no recognition rule and is classified skip. -/
theorem classify_no_rule_match_skip_witness :
    classifyScan { seriesDescription := "Localizer_3plane" } (lowerS "Localizer_3plane")
      = none :=
  classify_no_rule_match_skip _ _ (by decide) (by decide) (by decide) (by decide)
    (by decide) (by decide) (by decide) (by decide) (by decide)

/-! ## Lemmas about the organizer -/

theorem string_data_inj {x y : String} (h : x.data = y.data) : x = y := by
  cases x
  cases y
  exact congrArg String.mk h

theorem strAppend_cancel_left {a x y : String} (h : a ++ x = a ++ y) : x = y := by
  apply string_data_inj
  have h2 := congrArg String.data h
  simp only [String.data_append] at h2
  exact List.append_cancel_left h2

theorem containsSub_of_leadsWith {p l : List Char} (h : leadsWith p l = true) :
    containsSub p l = true := by
  cases l with
  | nil => simpa [containsSub] using h
  | cons c rest => simp [containsSub, h]

theorem containsS_taskPrefix (l : String) : containsS ("task-" ++ l) "task-" = true := by
  unfold containsS
  rw [String.data_append]
  exact containsSub_of_leadsWith (leadsWith_append _ _)

theorem lookupD_insert_self (m : List (String × Nat)) (k : String) (v : Nat) :
    lookupD (insertD m k v) k = v := by
  simp [lookupD, insertD, List.find?]

theorem lookupD_insert_ne (m : List (String × Nat)) (k k2 : String) (v : Nat)
    (h : k ≠ k2) : lookupD (insertD m k v) k2 = lookupD m k2 := by
  simp [lookupD, insertD, List.find?, h]

/-- The entities string written for the k-th functional scan of a label. -/
def runEntity (label : String) (k : Nat) : String :=
  "task-" ++ label ++ "_run-" ++ pad2 k

theorem organize_runs_aux (label : String) (scans : List ScanFile) :
    ∀ st : OrgState,
      (funcOutputsFor label ((scans.foldl organizeStep st).outputs)).map BidsOutput.entities
        = (funcOutputsFor label st.outputs).map BidsOutput.entities
          ++ (List.range' (lookupD st.counters ("func" ++ "_" ++ ("task-" ++ label)) + 1)
                (scans.countP (yieldsFuncLabel label))).map (runEntity label) := by
  induction scans with
  | nil => intro st; simp
  | cons sc scans ih =>
    intro st
    rw [List.foldl_cons, List.countP_cons]
    cases hni : sc.hasNifti with
    | false =>
      have hstep : organizeStep st sc = st := by simp [organizeStep, hni]
      have hy : yieldsFuncLabel label sc = false := by simp [yieldsFuncLabel, hni]
      rw [hstep, hy]
      simpa using ih st
    | true =>
    cases hjr : sc.jsonReadable with
    | false =>
      have hstep : organizeStep st sc = st := by simp [organizeStep, hni, hjr]
      have hy : yieldsFuncLabel label sc = false := by simp [yieldsFuncLabel, hni, hjr]
      rw [hstep, hy]
      simpa using ih st
    | true =>
    rcases hcl : classifyScan sc.meta (lowerS sc.meta.seriesDescription) with _ | ⟨dt, sfx, e0⟩
    · have hstep : organizeStep st sc = { st with skippedUnrec := st.skippedUnrec + 1 } := by
        simp [organizeStep, hni, hjr, hcl]
      have hy : yieldsFuncLabel label sc = false := by
        simp [yieldsFuncLabel, hni, hjr, hcl]
      rw [hstep, hy]
      simpa using ih { st with skippedUnrec := st.skippedUnrec + 1 }
    · by_cases hdt : dt = "func"
      · subst hdt
        by_cases hct : containsS e0 "task-" = true
        · by_cases he : e0 = "task-" ++ label
          · subst he
            have hy : yieldsFuncLabel label sc = true := by
              simp [yieldsFuncLabel, hni, hjr, hcl]
            have hstep : organizeStep st sc =
                { st with
                    organized := st.organized + 1,
                    counters := insertD st.counters ("func_" ++ ("task-" ++ label))
                      (lookupD st.counters ("func_" ++ ("task-" ++ label)) + 1),
                    outputs := st.outputs ++
                      [⟨"func", sfx, "task-" ++ label,
                        "task-" ++ label ++ "_run-" ++
                          pad2 (lookupD st.counters
                            ("func_" ++ ("task-" ++ label)) + 1)⟩] } := by
              simp [organizeStep, hni, hjr, hcl, hct]
            rw [hstep, hy, ih _]
            simp [funcOutputsFor, List.filter_append, lookupD_insert_self,
              List.range'_succ, runEntity]
          · have hy : yieldsFuncLabel label sc = false := by
              simp [yieldsFuncLabel, hni, hjr, hcl, he]
            have hkey : ("func_" ++ e0) ≠ ("func_" ++ ("task-" ++ label)) := by
              intro hk
              exact he (strAppend_cancel_left hk)
            have hstep : organizeStep st sc =
                { st with
                    organized := st.organized + 1,
                    counters := insertD st.counters ("func_" ++ e0)
                      (lookupD st.counters ("func_" ++ e0) + 1),
                    outputs := st.outputs ++
                      [⟨"func", sfx, e0,
                        e0 ++ "_run-" ++
                          pad2 (lookupD st.counters ("func_" ++ e0) + 1)⟩] } := by
              simp [organizeStep, hni, hjr, hcl, hct]
            rw [hstep, hy, ih _]
            simp [funcOutputsFor, List.filter_append, he,
              lookupD_insert_ne _ _ _ _ hkey]
        · have hne : e0 ≠ "task-" ++ label := by
            intro he
            exact hct (he ▸ containsS_taskPrefix label)
          have hy : yieldsFuncLabel label sc = false := by
            simp [yieldsFuncLabel, hni, hjr, hcl, hne]
          have hstep : organizeStep st sc =
              { st with
                  organized := st.organized + 1,
                  outputs := st.outputs ++ [⟨"func", sfx, e0, e0⟩] } := by
            simp [organizeStep, hni, hjr, hcl,
              (by simpa using hct : containsS e0 "task-" = false)]
          rw [hstep, hy, ih _]
          simp [funcOutputsFor, List.filter_append, hne]
      · have hy : yieldsFuncLabel label sc = false := by
          simp [yieldsFuncLabel, hni, hjr, hcl, hdt]
        have hstep : organizeStep st sc =
            { st with
                organized := st.organized + 1,
                outputs := st.outputs ++ [⟨dt, sfx, e0, e0⟩] } := by
          simp [organizeStep, hni, hjr, hcl, hdt]
        rw [hstep, hy, ih _]
        simp [funcOutputsFor, List.filter_append, hdt]

/-- Numeric value of a decimal digit character. -/
def digVal (c : Char) : Nat := c.toNat - 48

/-- Read back a two-character decimal string. -/
def unpad2 (s : String) : Nat :=
  match s.data with
  | [a, b] => 10 * digVal a + digVal b
  | _ => 0

theorem natStr_lt10 {k : Nat} (h : k < 10) : natStr k = ⟨[Char.ofNat (48 + k)]⟩ := by
  unfold natStr
  unfold natDigitsAux
  simp [h]

theorem natStr_lt100 {k : Nat} (h1 : 10 ≤ k) (h2 : k < 100) :
    natStr k = ⟨[Char.ofNat (48 + k / 10), Char.ofNat (48 + k % 10)]⟩ := by
  obtain ⟨m, rfl⟩ : ∃ m, k = m + 1 := ⟨k - 1, by omega⟩
  unfold natStr
  unfold natDigitsAux
  simp only [show ¬(m + 1 < 10) by omega, if_false]
  unfold natDigitsAux
  simp [show (m + 1) / 10 < 10 by omega]

theorem pad2_lt10 {k : Nat} (h : k < 10) :
    pad2 k = ⟨['0', Char.ofNat (48 + k)]⟩ := by
  rw [pad2, natStr_lt10 h]
  rfl

theorem pad2_lt100 {k : Nat} (h1 : 10 ≤ k) (h2 : k < 100) :
    pad2 k = ⟨[Char.ofNat (48 + k / 10), Char.ofNat (48 + k % 10)]⟩ := by
  rw [pad2, natStr_lt100 h1 h2]
  rfl

theorem pad2_len2 {k : Nat} (h : k ≤ 99) : (pad2 k).length = 2 := by
  by_cases h10 : k < 10
  · rw [pad2_lt10 h10]; rfl
  · rw [pad2_lt100 (by omega) (by omega)]; rfl

theorem digVal_ofNat48 {d : Nat} (h : d < 10) : digVal (Char.ofNat (48 + d)) = d := by
  interval_cases d <;> decide

theorem unpad2_pad2 {k : Nat} (h : k ≤ 99) : unpad2 (pad2 k) = k := by
  by_cases h10 : k < 10
  · rw [pad2_lt10 h10]
    show 10 * digVal '0' + digVal (Char.ofNat (48 + k)) = k
    rw [digVal_ofNat48 h10]
    have : digVal '0' = 0 := by decide
    omega
  · rw [pad2_lt100 (by omega) (by omega)]
    show 10 * digVal (Char.ofNat (48 + k / 10)) + digVal (Char.ofNat (48 + k % 10)) = k
    rw [digVal_ofNat48 (by omega), digVal_ofNat48 (Nat.mod_lt k (by omega))]
    omega

theorem pad2_inj99 {j k : Nat} (hj : j ≤ 99) (hk : k ≤ 99) (h : pad2 j = pad2 k) :
    j = k := by
  have := congrArg unpad2 h
  rwa [unpad2_pad2 hj, unpad2_pad2 hk] at this

/-- Concrete example scans used by the witnesses below. -/
def t1ScanEx : ScanFile := { meta := { seriesDescription := "AXIAL T1 MPRAGE" } }

/-- A functional example scan whose derived task label is `rest`. -/
def restScanEx : ScanFile := { meta := { seriesDescription := "BOLD_task-rest_run1" } }

/-- An example scan no classifier rule recognizes. -/
def unrecScanEx : ScanFile := { meta := { seriesDescription := "weird_unknown_thing" } }

/-- C6: within one subject/session conversion, the N functional scans that
derive the same task label receive, in encounter order, exactly the run
entities `run-01` through `run-0N`: the list of written entities equals
the canonical list over `1..N`, each run index is rendered with exactly two digits (for
N up to 99), and there is no gap and no reuse (the written names are
pairwise distinct). -/
theorem organize_run_indices (scans : List ScanFile) (label : String)
    (hN : scans.countP (yieldsFuncLabel label) ≤ 99) :
    (funcOutputsFor label (organizeAll scans).outputs).map BidsOutput.entities
        = (List.range' 1 (scans.countP (yieldsFuncLabel label))).map (runEntity label) ∧
      (funcOutputsFor label (organizeAll scans).outputs).length
        = scans.countP (yieldsFuncLabel label) ∧
      (∀ k ∈ List.range' 1 (scans.countP (yieldsFuncLabel label)), (pad2 k).length = 2) ∧
      ((funcOutputsFor label (organizeAll scans).outputs).map BidsOutput.entities).Nodup := by
  have h1 := organize_runs_aux label scans {}
  simp only [organizeAll] at h1 ⊢
  have h1e : (funcOutputsFor label ((scans.foldl organizeStep {}).outputs)).map
      BidsOutput.entities
      = (List.range' 1 (scans.countP (yieldsFuncLabel label))).map (runEntity label) := by
    simpa [funcOutputsFor, lookupD] using h1
  refine ⟨h1e, ?_, ?_, ?_⟩
  · have h2 := congrArg List.length h1e
    simpa [List.length_range' 1 1 (scans.countP (yieldsFuncLabel label))] using h2
  · intro k hk
    rw [List.mem_range'_1] at hk
    exact pad2_len2 (by omega)
  · rw [h1e]
    apply List.Nodup.map_on
    · intro x hx y hy hxy
      rw [List.mem_range'_1] at hx hy
      simp only [runEntity] at hxy
      exact pad2_inj99 (by omega) (by omega) (strAppend_cancel_left hxy)
    · exact (List.pairwise_lt_range' 1 (scans.countP (yieldsFuncLabel label))).nodup

/-- Witness for C6: three `rest` scans interleaved with an anatomical one
get run entities 01, 02, 03 in encounter order. -/
theorem organize_run_indices_witness :
    (funcOutputsFor "rest"
        (organizeAll [restScanEx, t1ScanEx, restScanEx, restScanEx]).outputs).map
        BidsOutput.entities
      = ["task-rest_run-01", "task-rest_run-02", "task-rest_run-03"] := by
  have h := organize_run_indices [restScanEx, t1ScanEx, restScanEx, restScanEx] "rest"
    (by decide)
  rw [h.1]
  decide

theorem organizeStep_skipped (st : OrgState) (sc : ScanFile) :
    (organizeStep st sc).skippedUnrec
      = st.skippedUnrec + (if isUnrecognized sc then 1 else 0) := by
  cases hni : sc.hasNifti with
  | false => simp [organizeStep, isUnrecognized, hni]
  | true =>
    cases hjr : sc.jsonReadable with
    | false => simp [organizeStep, isUnrecognized, hni, hjr]
    | true =>
      rcases hcl : classifyScan sc.meta (lowerS sc.meta.seriesDescription)
        with _ | ⟨dt, sfx, e0⟩
      · simp [organizeStep, isUnrecognized, hni, hjr, hcl]
      · have h0 : isUnrecognized sc = false := by
          simp [isUnrecognized, hni, hjr, hcl]
        rw [h0]
        simp only [organizeStep, hni, hjr, hcl, Bool.not_true, Bool.false_eq_true,
          if_false, if_true]
        split <;> rfl

theorem organizeStep_organized (st : OrgState) (sc : ScanFile) :
    (organizeStep st sc).organized
      = st.organized + (if isRecognized sc then 1 else 0) := by
  cases hni : sc.hasNifti with
  | false => simp [organizeStep, isRecognized, hni]
  | true =>
    cases hjr : sc.jsonReadable with
    | false => simp [organizeStep, isRecognized, hni, hjr]
    | true =>
      rcases hcl : classifyScan sc.meta (lowerS sc.meta.seriesDescription)
        with _ | ⟨dt, sfx, e0⟩
      · simp [organizeStep, isRecognized, hni, hjr, hcl]
      · have h0 : isRecognized sc = true := by
          simp [isRecognized, hni, hjr, hcl]
        rw [h0]
        simp only [organizeStep, hni, hjr, hcl, Bool.not_true, Bool.false_eq_true,
          if_false, if_true]
        split <;> rfl

theorem organize_skipped_count (scans : List ScanFile) :
    ∀ st : OrgState, (scans.foldl organizeStep st).skippedUnrec
      = st.skippedUnrec + scans.countP isUnrecognized := by
  induction scans with
  | nil => intro st; simp
  | cons sc scans ih =>
    intro st
    rw [List.foldl_cons, List.countP_cons, ih, organizeStep_skipped]
    split <;> omega

theorem organize_organized_count (scans : List ScanFile) :
    ∀ st : OrgState, (scans.foldl organizeStep st).organized
      = st.organized + scans.countP isRecognized := by
  induction scans with
  | nil => intro st; simp
  | cons sc scans ih =>
    intro st
    rw [List.foldl_cons, List.countP_cons, ih, organizeStep_organized]
    split <;> omega

theorem fmriprepStep_skipped (skipFmriprep : Bool) (t : TaskSpec)
    (b : TaskBehavior) (st : OrchState) :
    (fmriprepStep skipFmriprep t b st).1.report.skipped = st.report.skipped := by
  unfold fmriprepStep
  split
  · rfl
  · dsimp only
    split <;> rfl

theorem process_single_task_skipped (skipBids skipFmriprep : Bool) (t : TaskSpec)
    (b : TaskBehavior) (st : OrchState) :
    (process_single_task skipBids skipFmriprep t b st).1.report.skipped
      = st.report.skipped := by
  unfold process_single_task
  split
  · rcases he : fmriprepStep skipFmriprep t b st with ⟨st2, err2⟩
    have h2 := fmriprepStep_skipped skipFmriprep t b st
    rw [he] at h2
    exact h2
  · dsimp only
    split
    · refine (fmriprepStep_skipped skipFmriprep t b _).trans ?_
      split <;> rfl
    · rfl

theorem runMain_skipped (skipBids skipFmriprep : Bool)
    (tb : List (TaskSpec × TaskBehavior)) :
    (runMain skipBids skipFmriprep tb).report.skipped = [] := by
  unfold runMain
  split
  · rfl
  · dsimp only
    have haux : ∀ (l : List (TaskSpec × TaskBehavior)) (acc : ExecAcc),
        (l.foldl (execTask skipBids skipFmriprep) acc).st.report.skipped
          = acc.st.report.skipped := by
      intro l
      induction l with
      | nil => intro acc; rfl
      | cons p l ih =>
        intro acc
        rw [List.foldl_cons, ih]
        show (process_single_task skipBids skipFmriprep p.1 p.2 acc.st).1.report.skipped
          = acc.st.report.skipped
        exact process_single_task_skipped _ _ _ _ _
    rw [haux]

/-- C8 (amended): a scan the classifier does not recognize is handled
non-fatally — the organizing loop skips it, counts it locally, and goes on
to organize every recognized scan — but nothing is ever recorded in the
report's skipped list: `add_skipped` has no caller, so `report.skipped`
stays empty for every run. -/
theorem unrecognized_skip_nonfatal :
    (∀ (skipBids skipFmriprep : Bool) (tb : List (TaskSpec × TaskBehavior)),
        (runMain skipBids skipFmriprep tb).report.skipped = []) ∧
      (∀ scans : List ScanFile,
        (organizeAll scans).skippedUnrec = scans.countP isUnrecognized ∧
          (organizeAll scans).organized = scans.countP isRecognized) := by
  refine ⟨runMain_skipped, ?_⟩
  intro scans
  refine ⟨?_, ?_⟩
  · simpa [organizeAll] using organize_skipped_count scans {}
  · simpa [organizeAll] using organize_organized_count scans {}

/-- Counterexample to C8 as stated: a run whose conversion meets one
unrecognized scan skips it non-fatally (exit code 0, one scan skipped and
counted) yet the report's skipped list stays empty — the skip is never
recorded in the report. -/
theorem report_skipped_c8_counterexample :
    (organizeAll [unrecScanEx, t1ScanEx]).skippedUnrec = 1 ∧
      (runMain false true [(⟨"001", "01", 0⟩, { scans := [unrecScanEx, t1ScanEx] })]).exitCode
        = 0 ∧
      (runMain false true
          [(⟨"001", "01", 0⟩, { scans := [unrecScanEx, t1ScanEx] })]).report.skipped
        = [] := by
  decide

/-! ## Lemmas about the scheduler -/

theorem fmriprepStep_completed (skipFmriprep : Bool) (t : TaskSpec) (b : TaskBehavior)
    (st : OrchState) : (fmriprepStep skipFmriprep t b st).1.completed = st.completed := by
  unfold fmriprepStep
  split
  · rfl
  · dsimp only
    split <;> rfl

theorem fmriprepStep_events (skipFmriprep : Bool) (t : TaskSpec) (b : TaskBehavior)
    (st : OrchState) :
    (fmriprepStep skipFmriprep t b st).1.progressEvents = st.progressEvents := by
  unfold fmriprepStep
  split
  · rfl
  · dsimp only
    split <;> rfl

theorem process_single_task_completed (skipBids skipFmriprep : Bool) (t : TaskSpec)
    (b : TaskBehavior) (st : OrchState) :
    (process_single_task skipBids skipFmriprep t b st).1.completed
      = st.completed + (if skipBids then 0 else 1) := by
  unfold process_single_task
  split
  · exact (fmriprepStep_completed _ _ _ _).trans (Nat.add_zero st.completed).symm
  · dsimp only
    split
    · refine (fmriprepStep_completed _ _ _ _).trans ?_
      split <;> rfl
    · rfl

theorem process_single_task_events (skipBids skipFmriprep : Bool) (t : TaskSpec)
    (b : TaskBehavior) (st : OrchState) :
    (process_single_task skipBids skipFmriprep t b st).1.progressEvents
      = st.progressEvents ++ (if skipBids then [] else [st.completed + 1]) := by
  unfold process_single_task
  split
  · exact (fmriprepStep_events _ _ _ _).trans (List.append_nil st.progressEvents).symm
  · dsimp only
    split
    · refine (fmriprepStep_events _ _ _ _).trans ?_
      split <;> rfl
    · rfl

theorem process_single_task_trace (skipBids skipFmriprep : Bool) (t : TaskSpec)
    (b : TaskBehavior) (st : OrchState) :
    (process_single_task skipBids skipFmriprep t b st).2.2
        = traceOf skipBids skipFmriprep t b
      ∧ (process_single_task skipBids skipFmriprep t b st).2.1
        = (traceOf skipBids skipFmriprep t b).error := by
  rcases hc : (run_bids_conversion b).1 with _ | _ <;>
    by_cases hx : b.fmriprepExit = 0 <;> cases skipBids <;> cases skipFmriprep <;>
      simp [process_single_task, traceOf, fmriprepStep, hc, hx]

theorem exec_fold_progress (skipBids skipFmriprep : Bool)
    (l : List (TaskSpec × TaskBehavior)) : ∀ acc : ExecAcc,
    (l.foldl (execTask skipBids skipFmriprep) acc).st.completed
        = acc.st.completed + (if skipBids then 0 else l.length)
      ∧ (l.foldl (execTask skipBids skipFmriprep) acc).st.progressEvents
        = acc.st.progressEvents ++
            (if skipBids then [] else List.range' (acc.st.completed + 1) l.length) := by
  induction l with
  | nil => intro acc; cases skipBids <;> simp
  | cons p l ih =>
    intro acc
    rw [List.foldl_cons]
    obtain ⟨ihc, ihe⟩ := ih (execTask skipBids skipFmriprep acc p)
    have hc : (execTask skipBids skipFmriprep acc p).st.completed
        = acc.st.completed + (if skipBids then 0 else 1) :=
      process_single_task_completed skipBids skipFmriprep p.1 p.2 acc.st
    have he : (execTask skipBids skipFmriprep acc p).st.progressEvents
        = acc.st.progressEvents ++ (if skipBids then [] else [acc.st.completed + 1]) :=
      process_single_task_events skipBids skipFmriprep p.1 p.2 acc.st
    constructor
    · rw [ihc, hc]
      cases skipBids <;> simp <;> omega
    · rw [ihe, he, hc]
      cases skipBids
      · simp [List.range'_succ]
      · simp

theorem exec_fold_outcomes (skipBids skipFmriprep : Bool)
    (l : List (TaskSpec × TaskBehavior)) : ∀ acc : ExecAcc,
    (l.foldl (execTask skipBids skipFmriprep) acc).traces
        = acc.traces ++ l.map (fun p => traceOf skipBids skipFmriprep p.1 p.2)
      ∧ (l.foldl (execTask skipBids skipFmriprep) acc).errors
        = acc.errors ++ l.filterMap (fun p => (traceOf skipBids skipFmriprep p.1 p.2).error) := by
  induction l with
  | nil => intro acc; simp
  | cons p l ih =>
    intro acc
    rw [List.foldl_cons]
    obtain ⟨iht, ihe⟩ := ih (execTask skipBids skipFmriprep acc p)
    have ht : (execTask skipBids skipFmriprep acc p).traces
        = acc.traces ++ [traceOf skipBids skipFmriprep p.1 p.2] := by
      show acc.traces ++ [(process_single_task skipBids skipFmriprep p.1 p.2 acc.st).2.2] = _
      rw [(process_single_task_trace skipBids skipFmriprep p.1 p.2 acc.st).1]
    have he : (execTask skipBids skipFmriprep acc p).errors
        = acc.errors ++
            (match (traceOf skipBids skipFmriprep p.1 p.2).error with
              | some e => [e]
              | none => []) := by
      show acc.errors ++
          (match (process_single_task skipBids skipFmriprep p.1 p.2 acc.st).2.1 with
            | some e => [e]
            | none => []) = _
      rw [(process_single_task_trace skipBids skipFmriprep p.1 p.2 acc.st).2]
    constructor
    · rw [iht, ht, List.map_cons]
      simp
    · rw [ihe, he, List.filterMap_cons]
      rcases (traceOf skipBids skipFmriprep p.1 p.2).error with _ | e <;> simp

/-- C3 (amended): the completed-task counter starts at 0, the published
counts are strictly increasing and never exceed the total, and the counter
reaches the total — exactly once — by run end whenever the conversion stage
is enabled; in fMRIPrep-only mode (`skip_bids`) the counter is never
incremented, stays 0 for the whole run, and never equals a positive
total. -/
theorem progress_counter_behavior (skipBids skipFmriprep : Bool)
    (tb : List (TaskSpec × TaskBehavior)) :
    (runMain skipBids skipFmriprep tb).progressEvents
        = (if skipBids then [] else List.range' 1 tb.length)
      ∧ (runMain skipBids skipFmriprep tb).completed
        = (if skipBids then 0 else tb.length)
      ∧ List.Pairwise (· < ·) (runMain skipBids skipFmriprep tb).progressEvents
      ∧ (∀ c ∈ (runMain skipBids skipFmriprep tb).progressEvents, c ≤ tb.length)
      ∧ (runMain skipBids skipFmriprep tb).progressEvents.count tb.length
        = (if skipBids ∨ tb.length = 0 then 0 else 1) := by
  have hev : (runMain skipBids skipFmriprep tb).progressEvents
        = (if skipBids then [] else List.range' 1 tb.length)
      ∧ (runMain skipBids skipFmriprep tb).completed
        = (if skipBids then 0 else tb.length) := by
    unfold runMain
    split
    · rename_i hemp
      rw [List.isEmpty_iff.mp hemp]
      cases skipBids <;> simp
    · obtain ⟨hc, he⟩ := exec_fold_progress skipBids skipFmriprep tb
        ⟨{ report := { totalTasks := tb.length } }, [], []⟩
      dsimp only
      rw [hc, he]
      simp
  refine ⟨hev.1, hev.2, ?_, ?_, ?_⟩
  · rw [hev.1]
    cases skipBids
    · simpa using List.pairwise_lt_range' 1 tb.length
    · simp
  · intro c hc
    rw [hev.1] at hc
    cases skipBids <;> simp at hc
    omega
  · rw [hev.1]
    cases skipBids
    · by_cases h0 : tb.length = 0
      · simp [h0]
      · rw [if_neg (by simp), if_neg (by simp [h0])]
        refine List.count_eq_one_of_mem (List.pairwise_lt_range' 1 tb.length).nodup ?_
        rw [List.mem_range'_1]
        omega
    · simp

/-- A task behaviour whose conversion and preprocessing both succeed. -/
def okBehaviorEx : TaskBehavior := { scans := [t1ScanEx] }

/-- A task behaviour whose conversion succeeds and whose preprocessing
fails. -/
def convOkFmFailEx : TaskBehavior := { scans := [t1ScanEx], fmriprepExit := 1 }

/-- A task behaviour whose conversion fails (non-zero dcm2niix exit). -/
def convFailEx : TaskBehavior := { dcm2niixExit := 1 }

/-- Counterexample to C3 as stated: in fMRIPrep-only mode (conversion
skipped) with one task, the completed counter is never incremented — at run
end it is 0, not the total 1, and no published count ever equals the
total. -/
theorem progress_c3_counterexample :
    (runMain true false [(⟨"001", "01", 0⟩, okBehaviorEx)]).completed = 0 ∧
      ([(⟨"001", "01", 0⟩, okBehaviorEx)] : List (TaskSpec × TaskBehavior)).length = 1 ∧
      (runMain true false [(⟨"001", "01", 0⟩, okBehaviorEx)]).progressEvents.count 1
        = 0 := by
  decide

/-- C1 evaluated at the failing input (code bug): one subject `001` with
two sessions, preprocessing enabled, both conversions succeeding — the
preprocessing collaborator is invoked once per session task, i.e. twice for
the same subject, and each invocation happens right after its own task's
conversion rather than after all of the subject's conversions. -/
theorem fmriprep_invoked_per_session :
    (runMain false false
        [(⟨"001", "01", 0⟩, okBehaviorEx), (⟨"001", "02", 1⟩, okBehaviorEx)]).fmriprepCalls
        = ["001", "001"] ∧
      (runMain false false
        [(⟨"001", "01", 0⟩, okBehaviorEx),
          (⟨"001", "02", 1⟩, okBehaviorEx)]).fmriprepCalls.count "001" = 2 := by
  decide

/-- C10: a task whose conversion succeeds and whose preprocessing then
fails is recorded twice — one success entry and one failure entry for the
same (subject, session) — so success plus failure counts exceed the task
total, the overall status is partial success, and the process exits 1. -/
theorem dual_outcome_partial_success :
    (runMain false false [(⟨"001", "01", 0⟩, convOkFmFailEx)]).report.successful
        = [⟨"001", "01", 0⟩] ∧
      (runMain false false [(⟨"001", "01", 0⟩, convOkFmFailEx)]).report.failed
        = [⟨"001", "01", "fMRIPrep processing failed", "fMRIPrep"⟩] ∧
      (runMain false false [(⟨"001", "01", 0⟩, convOkFmFailEx)]).report.totalTasks = 1 ∧
      (runMain false false [(⟨"001", "01", 0⟩, convOkFmFailEx)]).report.successful.length
          + (runMain false false [(⟨"001", "01", 0⟩, convOkFmFailEx)]).report.failed.length
        > (runMain false false [(⟨"001", "01", 0⟩, convOkFmFailEx)]).report.totalTasks ∧
      (runMain false false [(⟨"001", "01", 0⟩, convOkFmFailEx)]).report.status
        = RunStatus.partialSuccess ∧
      (runMain false false [(⟨"001", "01", 0⟩, convOkFmFailEx)]).exitCode = 1 := by
  decide

/-- C4 (amended): in a run with at least one submitted task, every task
runs to completion with an outcome that depends only on that task's own
inputs (a conversion failure skips only that task's preprocessing), the
exit code is 1 exactly when some task failed and 0 when all succeeded, and
the report file is written before exit; a run that builds no tasks,
however, exits 0 immediately without writing a report. -/
theorem run_outcomes (skipBids skipFmriprep : Bool)
    (tb : List (TaskSpec × TaskBehavior)) (h : tb ≠ []) :
    (runMain skipBids skipFmriprep tb).reportWritten = true
      ∧ (runMain skipBids skipFmriprep tb).traces
        = tb.map (fun p => traceOf skipBids skipFmriprep p.1 p.2)
      ∧ (runMain skipBids skipFmriprep tb).exitCode
        = (if tb.any (fun p => (traceOf skipBids skipFmriprep p.1 p.2).error.isSome)
            then 1 else 0)
      ∧ (∀ p ∈ tb, skipBids = false → (run_bids_conversion p.2).1 = false →
          (traceOf skipBids skipFmriprep p.1 p.2).fmriprepRan = false) := by
  unfold runMain
  split
  · rename_i hemp
    exact absurd (List.isEmpty_iff.mp hemp) h
  · dsimp only
    obtain ⟨ht, he⟩ := exec_fold_outcomes skipBids skipFmriprep tb
      ⟨{ report := { totalTasks := tb.length } }, [], []⟩
    refine ⟨rfl, by rw [ht]; simp, ?_, ?_⟩
    · rw [he]
      simp only [List.nil_append]
      by_cases ha : tb.any
          (fun p => (traceOf skipBids skipFmriprep p.1 p.2).error.isSome) = true
      · rw [if_pos ha]
        obtain ⟨p, hp, hsome⟩ := List.any_eq_true.mp ha
        obtain ⟨e, hee⟩ := Option.isSome_iff_exists.mp hsome
        have hmem : e ∈ tb.filterMap
            (fun p => (traceOf skipBids skipFmriprep p.1 p.2).error) :=
          List.mem_filterMap.mpr ⟨p, hp, hee⟩
        rw [if_neg]
        intro hnil
        rw [List.isEmpty_iff.mp hnil] at hmem
        exact absurd hmem (List.not_mem_nil e)
      · rw [if_neg ha]
        have hall : ∀ p ∈ tb, (traceOf skipBids skipFmriprep p.1 p.2).error = none := by
          intro p hp
          by_contra hne
          exact ha (List.any_eq_true.mpr
            ⟨p, hp, Option.ne_none_iff_isSome.mp hne⟩)
        have hnil : tb.filterMap
            (fun p => (traceOf skipBids skipFmriprep p.1 p.2).error) = [] :=
          List.filterMap_eq_nil.mpr hall
        rw [hnil]
        rfl
    · intro p hp hsb hconv
      simp [traceOf, hsb, hconv]

/-- Witness for C4 (amended): a two-task run whose first conversion fails —
the failed task's preprocessing is skipped, the second task still completes,
the report is written, and the process exits 1. -/
theorem run_outcomes_witness :
    (runMain false false
        [(⟨"001", "01", 0⟩, convFailEx), (⟨"002", "01", 1⟩, okBehaviorEx)]).reportWritten
        = true
      ∧ (runMain false false
          [(⟨"001", "01", 0⟩, convFailEx), (⟨"002", "01", 1⟩, okBehaviorEx)]).exitCode
        = 1 := by
  have h := run_outcomes false false
    [(⟨"001", "01", 0⟩, convFailEx), (⟨"002", "01", 1⟩, okBehaviorEx)] (by decide)
  refine ⟨h.1, h.2.2.1.trans ?_⟩
  decide

/-- Counterexample to C4 as stated: a run that builds zero tasks exits with
code 0 without writing any report file, contradicting the claim that a
report is written before exit in either case. -/
theorem empty_run_no_report :
    (runMain false false []).exitCode = 0 ∧
      (runMain false false []).reportWritten = false := by
  decide

/-! ## Lemmas about cancellation and cleanup -/

theorem rmtreeWithRetry_eq (lockError : Nat → Bool) :
    rmtreeWithRetry lockError = !(lockError 0 && lockError 1 && lockError 2) := by
  cases h0 : lockError 0 <;> cases h1 : lockError 1 <;> cases h2 : lockError 2 <;>
    simp [rmtreeWithRetry, deleteLoop, h0, h1, h2]

theorem forwardFrom_flag (stopFlag : Nat → Bool) (lines : List String) :
    ∀ i j, j < (forwardFrom stopFlag i lines).length → stopFlag (i + j) = false := by
  induction lines with
  | nil => intro i j h; simp [forwardFrom] at h
  | cons l rest ih =>
    intro i j h
    rw [forwardFrom] at h
    by_cases hf : stopFlag i = true
    · rw [if_pos hf] at h
      simp at h
    · rw [if_neg hf] at h
      cases j with
      | zero => simpa using hf
      | succ j2 =>
        have h2 := ih (i + 1) j2 (by simpa using h)
        rw [show i + (j2 + 1) = i + 1 + j2 by omega]
        exact h2

/-- C9 (amended): once cancellation is requested, no further stdout line is
forwarded from the point the flag is observed; the external process group
is terminated — SIGTERM with a 5 s grace period, then SIGKILL — whether or
not it honours the graceful signal; and the run's output subtree is deleted
provided one of the three `rmtree` attempts is free of file-lock errors —
when all three attempts hit lock errors the subtree remains on disk and the
failure is silently tolerated. -/
theorem cancellation_behavior (lines : List String) (stopFlag : Nat → Bool)
    (resp : ProcResponse) (folderExists : Bool) (lockError : Nat → Bool)
    (h : ∃ k, k < 3 ∧ lockError k = false) :
    (∀ j, j < (forwardedLines stopFlag lines).length → stopFlag j = false)
      ∧ terminateProcess resp = false
      ∧ folderExistsAfterStop folderExists lockError = false := by
  refine ⟨?_, ?_, ?_⟩
  · intro j hj
    simpa using forwardFrom_flag stopFlag lines 0 j hj
  · cases resp <;> rfl
  · obtain ⟨k, hk, hl⟩ := h
    unfold folderExistsAfterStop
    rw [rmtreeWithRetry_eq]
    interval_cases k <;> simp [hl]

/-- Witness for C9 (amended): a stop flag raised at line 1, a process that
ignores SIGTERM, and a folder whose first deletion attempt succeeds. -/
theorem cancellation_behavior_witness :
    (∀ j, j < (forwardedLines (fun i => decide (1 ≤ i)) ["a", "b", "c"]).length →
        (fun i => decide (1 ≤ i)) j = false)
      ∧ terminateProcess ProcResponse.ignoresTerm = false
      ∧ folderExistsAfterStop true (fun k => decide (k = 0)) = false :=
  cancellation_behavior ["a", "b", "c"] (fun i => decide (1 ≤ i))
    ProcResponse.ignoresTerm true (fun k => decide (k = 0)) ⟨1, by decide⟩

/-- Counterexample to C9 as stated: when every one of the three bounded
deletion attempts hits a file-lock error, the run's output subtree still
exists on disk after the cancellation cleanup finishes. -/
theorem cleanup_c9_counterexample :
    folderExistsAfterStop true (fun _ => true) = true := by
  rfl

end FmriPrep
